import Mathlib

/-!
Verification model of the editing engine of the `nmeylan/text-editor`
repository (files `src/text_editor.rs`, `src/selection.rs`, `src/history.rs`).

Modelling conventions:
* A document line is a `List Char`; the editor's `Vec<String>` becomes
  `List (List Char)`.  All reasoning is at character granularity: for the
  ASCII documents used in every concrete scenario below, Rust byte indices
  and char indices coincide, and egui's `byte_index_from_char_index`
  becomes clamping a char index to the line length.
* Event times (`ui.input().time`, an `f64` number of seconds) are modelled
  as `Int`; the only operations the code performs on them are subtraction
  and comparison against the inactivity threshold `2.0`, so integer time
  points express every behaviour the claims exercise.
* Pixel-space state (`cursor_pos`, `scroll_offset`, viewport rectangles,
  glyph caches) and the render-only fields (`highlighted_word`,
  `word_occurrences`, `has_pressed_arrow_key`) are omitted: no branch of
  the modelled operations reads them to decide a buffer/cursor/selection/
  history mutation.  The bracket-matcher `RefCell`s are modelled as pure
  functions of the editor data (they are recomputed from it).
* Rust `Vec`/`String` indexing panics out of bounds; the model totalises
  those accesses with `List.getD`/`List.take`/`List.drop` (an out-of-range
  access yields a default instead of aborting).  Theorems that need the
  in-bounds behaviour carry explicit bounds hypotheses.
-/

namespace Editor

/-- A line of the document, at character granularity. -/
abbrev Str := List Char

/-- Mirrors `Pos<usize>` from `text_editor.rs`: `x` is the character column,
`y` the line index. -/
structure Pos where
  x : Nat
  y : Nat
deriving DecidableEq

/-- Mirrors `SingleAction` from `history.rs`. -/
inductive SingleAction where
  | addChar (startPos : Pos) (char : Str)
  | removeChar (startPos : Pos) (char : Char)
  | removeLine (lineIndex : Nat)
  | newLine (position : Pos)
deriving DecidableEq

/-- Mirrors `TextAction` from `history.rs`. -/
structure TextAction where
  startIndex : Nat
  endIndex : Nat
  lines : List Str
deriving DecidableEq

/-- Mirrors `BulkAction` from `history.rs`. -/
inductive BulkAction where
  | addText (t : TextAction)
  | removeText (t : TextAction)
deriving DecidableEq

/-- Mirrors `UnsavedState` from `history.rs` (the pending edit batch);
`cursor_pos` (pixels) is omitted per the conventions above. -/
structure UnsavedState where
  lastActivityAt : Int
  cursorIndex : Pos
  actions : List SingleAction
deriving DecidableEq

/-- Mirrors `State` from `history.rs` (one undo-stack entry). -/
structure State where
  createdAt : Int
  cursorIndex : Pos
  bulkAction : BulkAction
deriving DecidableEq

/-- The editor state: the fields of `struct TextEditor` that participate in
buffer/cursor/selection/history logic.  `linesCount` is the cached
`lines_count` field, refreshed only at the start of `ui` (a frame), while
`lines` is the live buffer — the two can disagree within a frame. -/
structure TextEditor where
  lines : List Str
  linesCount : Nat
  cursorIndex : Pos
  startDraggedIndex : Option Pos
  stopDraggedIndex : Option Pos
  selectionStartIndex : Option Pos
  selectionEndIndex : Option Pos
  unsavedStated : Option UnsavedState
  history : List State
deriving DecidableEq

/-- Key presses modelled from `on_key_press`. -/
inductive Key where
  | arrowDown
  | arrowUp
  | arrowLeft
  | arrowRight
  | backspace
  | delete
  | enter
  | z
deriving DecidableEq

/-- The `Modifiers` flags consulted by `on_key_press`. -/
structure Modifiers where
  shift : Bool
  ctrl : Bool
deriving DecidableEq

def noModifiers : Modifiers := ⟨false, false⟩

def ctrlModifier : Modifiers := ⟨false, true⟩

/-- Vec::remove / `delete_char_range(i..i+1)`: drop the element at index `i`
(totalised: identity when `i` is out of range, where Rust would panic). -/
def removeAt (l : List α) (i : Nat) : List α :=
  l.take i ++ l.drop (i + 1)

/-- Vec::insert / egui `insert_text`: insert `xs` at index `i` (totalised:
appends at the end when `i` exceeds the length, matching egui's clamping
for text insertion; `Vec::insert` would panic there). -/
def insertListAt (l : List α) (i : Nat) (xs : List α) : List α :=
  l.take i ++ xs ++ l.drop i

/-- egui's `byte_index_from_char_index`, at character granularity: a char
index beyond the end of the line maps to the end of the line. -/
def byteIndexFromCharIndex (line : Str) (ci : Nat) : Nat :=
  min ci line.length

/-- Mirrors `first_line_index` (text_editor.rs, lines 506-515).  `q` stands
for the already-floored quotient `(scroll_offset.y / line_height) as usize`
(both operands are non-negative, so the `as usize` cast is the floor), and
`len` for `self.lines.len()`. -/
def firstLineIndex (q len : Nat) : Nat :=
  if q > len - 1 ∧ len > 1 then len - 2
  else if q > len then len - 1
  else q

/-- Modelled from the spec words for C9 (section 4.6 of the spec): the floor
quotient clamped into `[0, len-1]`, with overflow clamped to `len-2` when
more than one line exists. -/
def firstLineIndexSpec (q len : Nat) : Nat :=
  if q ≤ len - 1 then q
  else if 1 < len then len - 2
  else len - 1

/-- Net effect of `set_cursor_y` (text_editor.rs, lines 784-792).
The Rust code assigns the new line, then `sanitize_cursor_position`
re-clamps: if the new line is `≥ lines_count` it recursively calls
`set_cursor_y(lines_count - 1)` (which re-runs the sanitizer at an in-range
line), and then the char is clamped to the (possibly stale) current line's
length.  Unrolling that bounded mutual recursion: the final line is the
clamp of `v` against the cached `linesCount`, and the final char is the old
char clamped to the length of the line now under the cursor.  The early
return when the value is unchanged (skipping the sanitizer) is kept.
Where the code reads `self.lines[y]` at an index `≥ lines.len()` it
panics; the model reads the empty line instead. -/
def setCursorY (s : TextEditor) (v : Nat) : TextEditor :=
  if s.cursorIndex.y = v then s
  else
    let y := if v ≥ s.linesCount then s.linesCount - 1 else v
    let len := (s.lines.getD y []).length
    { s with cursorIndex := ⟨min s.cursorIndex.x len, y⟩ }

/-- Net effect of `set_cursor_x` (text_editor.rs, lines 794-803), unrolled
the same way as `setCursorY`: the sanitizer may first clamp an out-of-range
line against the cached `linesCount`, then the new char is clamped to the
length of the line under the cursor. -/
def setCursorX (s : TextEditor) (w : Nat) : TextEditor :=
  if s.cursorIndex.x = w then s
  else
    let y := if s.cursorIndex.y ≥ s.linesCount then s.linesCount - 1 else s.cursorIndex.y
    let len := (s.lines.getD y []).length
    { s with cursorIndex := ⟨min w len, y⟩ }

/-- Mirrors `reset_selection` (selection.rs, lines 17-23); the
`highlighted_word` field is omitted from the state (render-only). -/
def resetSelection (s : TextEditor) : TextEditor :=
  { s with
    selectionStartIndex := none
    selectionEndIndex := none
    startDraggedIndex := none
    stopDraggedIndex := none }

/-- First half of `set_selection` (selection.rs, lines 28-38): order the drag
anchor/endpoint by line, then by char when they are on the same line. -/
def normDragPair (a b : Pos) : Pos × Pos :=
  let p := if a.y > b.y then (b, a) else (a, b)
  if p.1.y = p.2.y ∧ p.1.x > p.2.x then (⟨p.2.x, p.1.y⟩, ⟨p.1.x, p.2.y⟩) else p

/-- Second half of `set_selection` (selection.rs, lines 39-52), for one
endpoint: clamp the line against the cached `lines_count`, then the char
against the (live) length of the line it landed on. -/
def clampPos (lines : List Str) (linesCount : Nat) (p : Pos) : Pos :=
  let p1 := if p.y ≥ linesCount then ⟨p.x, linesCount - 1⟩ else p
  let lineLen := (lines.getD p1.y []).length
  if p1.x > lineLen then ⟨lineLen, p1.y⟩ else p1

/-- The selection pair `set_selection` publishes for drag anchor `a` and
endpoint `b` (selection.rs, lines 24-55). -/
def publishSel (lines : List Str) (linesCount : Nat) (a b : Pos) : Pos × Pos :=
  let p := normDragPair a b
  (clampPos lines linesCount p.1, clampPos lines linesCount p.2)

/-- Mirrors `set_selection` (selection.rs, lines 24-55). -/
def setSelection (s : TextEditor) : TextEditor :=
  match s.startDraggedIndex, s.stopDraggedIndex with
  | some a, some b =>
    let p := publishSel s.lines s.linesCount a b
    { s with selectionStartIndex := some p.1, selectionEndIndex := some p.2 }
  | _, _ => s

/-- Mirrors `has_selection` (selection.rs, lines 57-59). -/
def hasSelection (s : TextEditor) : Bool :=
  s.selectionStartIndex.isSome && s.selectionEndIndex.isSome

/-- Mirrors `key_press_on_selection` (selection.rs, lines 157-197): splice
the optional replacement over the selected range (single-line, adjacent
two-line, or multi-line branch), then move the cursor to the selection
start and clear the selection/drag state. -/
def keyPressOnSelection (txt : Option Str) (s : TextEditor) : TextEditor :=
  match s.selectionStartIndex, s.selectionEndIndex with
  | some st, some en =>
    let repl := txt.getD []
    let s1 :=
      if st.y = en.y then
        let line := s.lines.getD st.y []
        let sx := byteIndexFromCharIndex line st.x
        let ex := byteIndexFromCharIndex line en.x
        { s with lines := s.lines.set st.y (line.take sx ++ repl ++ line.drop ex) }
      else if st.y + 1 = en.y then
        let line := s.lines.getD st.y []
        let sx := byteIndexFromCharIndex line st.x
        let newLineStart := line.take sx
        let lines1 := removeAt s.lines st.y
        let line2 := lines1.getD st.y []
        let ex := byteIndexFromCharIndex line2 en.x
        { s with lines := lines1.set st.y (newLineStart ++ repl ++ line2.drop ex) }
      else
        let line := s.lines.getD st.y []
        let sx := byteIndexFromCharIndex line st.x
        let newLineStart := line.take sx
        let lineE := s.lines.getD en.y []
        let ex := byteIndexFromCharIndex lineE en.x
        let newLineEnd := lineE.drop ex
        let lines1 := s.lines.take st.y ++ s.lines.drop en.y
        { s with lines := lines1.set st.y (newLineStart ++ repl ++ newLineEnd) }
    let s2 := setCursorY s1 st.y
    let s3 := setCursorX s2 st.x
    resetSelection s3
  | _, _ => s

/-- Mirrors `init_unsaved_state` (history.rs, lines 68-75). -/
def initUnsavedState (t : Int) (s : TextEditor) : TextEditor :=
  { s with unsavedStated := some ⟨t, s.cursorIndex, []⟩ }

/-- The line index an action contributes to the `min_index`/`max_index`
scan of `flush_unsaved_state` (history.rs, lines 104-120). -/
def actionLineIndex : SingleAction → Nat
  | .addChar p _ => p.y
  | .removeChar p _ => p.y
  | .removeLine i => i
  | .newLine p => p.y

/-- The `(min_index, max_index)` pair computed by `flush_unsaved_state`
(history.rs, lines 100-121): minimum and maximum touched line, with the
maximum extended by the number of `NewLine` actions. -/
def batchBounds (linesLen : Nat) (actions : List SingleAction) : Nat × Nat :=
  let z := actions.foldl
    (fun acc a =>
      let y := actionLineIndex a
      (if y < acc.1 then y else acc.1,
        if acc.2.1 < y then y else acc.2.1,
        acc.2.2 + (match a with | .newLine _ => 1 | _ => 0)))
    (linesLen, 0, 0)
  (z.1, z.2.1 + z.2.2)

/-- The working snapshot `flush_unsaved_state` seeds from the current
buffer (history.rs, lines 123-124): the slice
`lines[min_index ..= min(lines.len()-1, max_index)]`, spliced over the
scratch vector (the splice replaces the whole scratch vector, so the
result is exactly the slice). -/
def afterSnapshot (docLines : List Str) (actions : List SingleAction) : List Str :=
  let b := batchBounds docLines.length actions
  (docLines.drop b.1).take (min (docLines.length - 1) b.2 + 1 - b.1)

/-- One step of the reverse replay in `flush_unsaved_state` (history.rs,
lines 126-149): apply the inverse of a single action to the working
snapshot (whose line `0` is document line `minIndex`). -/
def applyInverse (minIndex : Nat) (lines : List Str) : SingleAction → List Str
  | .addChar p _ =>
    lines.set (p.y - minIndex) (removeAt (lines.getD (p.y - minIndex) []) p.x)
  | .removeChar p c =>
    lines.set (p.y - minIndex)
      (insertListAt (lines.getD (p.y - minIndex) []) (max p.x 1 - 1) [c])
  | .removeLine i => insertListAt lines (i - minIndex) [[]]
  | .newLine p =>
    let y := p.y - minIndex
    let merged := lines.getD y [] ++ lines.getD (y + 1) []
    removeAt (lines.set y merged) (y + 1)

/-- The snapshot left after the reverse replay loop of
`flush_unsaved_state` (history.rs, lines 126-149): actions are popped from
the end, i.e. replayed in reverse chronological order. -/
def beforeSnapshot (docLines : List Str) (actions : List SingleAction) : List Str :=
  actions.reverse.foldl (applyInverse (batchBounds docLines.length actions).1)
    (afterSnapshot docLines actions)

/-- Mirrors `flush_unsaved_state` (history.rs, lines 90-167): no-op when
there is no pending batch or the inactivity threshold (2.0) has not
elapsed since the batch's last activity; otherwise clear the batch and
produce a `State` whose payload is the replayed snapshot, classified by
comparing the snapshot's length before the replay (`before_lines_count`)
with its length after the replay (`after_lines_count`). -/
def flushUnsavedState (t : Int) (s : TextEditor) : TextEditor × Option State :=
  match s.unsavedStated with
  | none => (s, none)
  | some u =>
    if t - u.lastActivityAt < 2 then (s, none)
    else
      let s1 := { s with unsavedStated := none }
      let b := batchBounds s.lines.length u.actions
      let seed := afterSnapshot s.lines u.actions
      let finalLines := beforeSnapshot s.lines u.actions
      let ta : TextAction := ⟨b.1, b.2, finalLines⟩
      (s1, some ⟨u.lastActivityAt, u.cursorIndex,
        if seed.length ≤ finalLines.length then .addText ta else .removeText ta⟩)

/-- Mirrors `feed_history` (text_editor.rs, lines 673-678). -/
def feedHistory (t : Int) (s : TextEditor) : TextEditor :=
  match flushUnsavedState t s with
  | (s1, some st) => { s1 with history := s1.history ++ [st] }
  | (s1, none) => s1

/-- Mirrors `push_action_to_unsaved_state` (history.rs, lines 77-88):
lazily create the batch, append the action, then either flush immediately
(when the inactivity threshold already elapsed) or refresh the batch's
last-activity time. -/
def pushActionToUnsavedState (t : Int) (a : SingleAction) (s : TextEditor) : TextEditor :=
  let s1 := match s.unsavedStated with
    | none => initUnsavedState t s
    | some _ => s
  match s1.unsavedStated with
  | none => s1
  | some u =>
    let s2 := { s1 with unsavedStated := some ⟨u.lastActivityAt, u.cursorIndex, u.actions ++ [a]⟩ }
    if 2 ≤ t - u.lastActivityAt then feedHistory t s2
    else { s2 with unsavedStated := some ⟨t, u.cursorIndex, u.actions ++ [a]⟩ }

/-- Mirrors `remove_char_at` (text_editor.rs, lines 680-682). -/
def removeCharAt (pos : Pos) (s : TextEditor) : TextEditor :=
  { s with lines := s.lines.set pos.y (removeAt (s.lines.getD pos.y []) pos.x) }

/-- Mirrors `insert_text_at` (text_editor.rs, lines 684-686). -/
def insertTextAt (txt : Str) (pos : Pos) (s : TextEditor) : TextEditor :=
  { s with lines := s.lines.set pos.y (insertListAt (s.lines.getD pos.y []) pos.x txt) }

/-- The `Key::Backspace` branch of `on_key_press` (text_editor.rs,
lines 565-588). -/
def backspaceStep (t : Int) (s : TextEditor) : TextEditor :=
  let line := s.lines.getD s.cursorIndex.y []
  let lineLen := line.length
  if hasSelection s then keyPressOnSelection none s
  else if 0 < lineLen ∧ 0 < s.cursorIndex.x then
    let s1 := pushActionToUnsavedState t
      (.removeChar s.cursorIndex (line.getD (s.cursorIndex.x - 1) (Char.ofNat 0))) s
    let s2 := setCursorX s1 (s1.cursorIndex.x - 1)
    removeCharAt s2.cursorIndex s2
  else if s.cursorIndex.x = 0 ∧ 0 < s.cursorIndex.y then
    let s1 := pushActionToUnsavedState t (.removeLine s.cursorIndex.y) s
    let previousLineLen := (s1.lines.getD (s1.cursorIndex.y - 1) []).length
    let removed := s1.lines.getD s1.cursorIndex.y []
    let s2 := { s1 with lines := removeAt s1.lines s1.cursorIndex.y }
    let s3 :=
      if removed ≠ [] then
        let mergedLines := s2.lines.set (s2.cursorIndex.y - 1)
          (s2.lines.getD (s2.cursorIndex.y - 1) [] ++ removed)
        { s2 with lines := mergedLines }
      else s2
    let s4 := setCursorY s3 (s3.cursorIndex.y - 1)
    setCursorX s4 previousLineLen
  else s

/-- The `Key::Delete` branch of `on_key_press` (text_editor.rs,
lines 589-613). -/
def deleteStep (t : Int) (s : TextEditor) : TextEditor :=
  let line := s.lines.getD s.cursorIndex.y []
  let lineLen := line.length
  let xIndex := byteIndexFromCharIndex line s.cursorIndex.x
  if hasSelection s then keyPressOnSelection none s
  else if xIndex < lineLen then
    let s1 := pushActionToUnsavedState t
      (.removeChar s.cursorIndex (line.getD s.cursorIndex.x (Char.ofNat 0))) s
    removeCharAt s1.cursorIndex s1
  else if lineLen = 0 ∧ s.cursorIndex.y + 1 < s.lines.length then
    let s1 := pushActionToUnsavedState t (.removeLine s.cursorIndex.y) s
    let s2 := { s1 with lines := removeAt s1.lines s1.cursorIndex.y }
    setCursorY s2 s2.cursorIndex.y
  else if lineLen = xIndex ∧ s.cursorIndex.y + 1 < s.lines.length then
    let s1 := pushActionToUnsavedState t (.removeLine (s.cursorIndex.y + 1)) s
    let removed := s1.lines.getD (s1.cursorIndex.y + 1) []
    let s2 := { s1 with lines := removeAt s1.lines (s1.cursorIndex.y + 1) }
    if removed ≠ [] then
      let mergedLines := s2.lines.set s2.cursorIndex.y
        (s2.lines.getD s2.cursorIndex.y [] ++ removed)
      { s2 with lines := mergedLines }
    else s2
  else s

/-- The `Key::Enter` branch of `on_key_press` (text_editor.rs,
lines 614-630). -/
def enterStep (t : Int) (s : TextEditor) : TextEditor :=
  if hasSelection s then keyPressOnSelection none s
  else
    let line := s.lines.getD s.cursorIndex.y []
    let xIndex := byteIndexFromCharIndex line s.cursorIndex.x
    let s1 := { s with lines := s.lines.set s.cursorIndex.y (line.take xIndex) }
    let s2 := { s1 with lines := insertListAt s1.lines (s1.cursorIndex.y + 1) [line.drop xIndex] }
    let s3 := pushActionToUnsavedState t (.newLine s2.cursorIndex) s2
    let s4 := setCursorY s3 (s3.cursorIndex.y + 1)
    setCursorX s4 0

/-- The payload lines of a history entry. -/
def entryLines : BulkAction → List Str
  | .addText a => a.lines
  | .removeText a => a.lines

/-- The `Key::Z` (ctrl) branch of `on_key_press` (text_editor.rs,
lines 645-667): pop the most recent history entry, splice its stored lines
back (`AddText`: replace the `[start, end]` range; `RemoveText`: reinsert
at `start`), and restore the saved cursor without any re-clamping. -/
def undoStep (s : TextEditor) : TextEditor :=
  match s.history.getLast? with
  | none => s
  | some st =>
    let s1 := { s with history := s.history.dropLast }
    let s2 :=
      match st.bulkAction with
      | .addText a =>
        { s1 with lines := s1.lines.take a.startIndex ++ a.lines ++
            s1.lines.drop (min s1.lines.length (a.endIndex + 1)) }
      | .removeText a =>
        let startPart := s1.lines.take a.startIndex
        let endPart := if a.endIndex + 1 ≤ s1.lines.length - 1
          then s1.lines.drop (a.endIndex + 1) else []
        { s1 with lines := startPart ++ a.lines ++ endPart }
    { s2 with cursorIndex := st.cursorIndex }

/-- The `Key::ArrowDown`/`Key::ArrowUp` branch of `on_key_press`
(text_editor.rs, lines 527-545). -/
def arrowVertical (down : Bool) (m : Modifiers) (s : TextEditor) : TextEditor :=
  let s1 := if m.shift then
      (if s.startDraggedIndex.isNone then { s with startDraggedIndex := some s.cursorIndex } else s)
    else resetSelection s
  let s2 := if down then setCursorY s1 (s1.cursorIndex.y + 1)
    else if 0 < s1.cursorIndex.y then setCursorY s1 (s1.cursorIndex.y - 1) else s1
  if m.shift then setSelection { s2 with stopDraggedIndex := some s2.cursorIndex } else s2

/-- The `Key::ArrowLeft`/`Key::ArrowRight` branch of `on_key_press`
(text_editor.rs, lines 546-564). -/
def arrowHorizontal (right : Bool) (m : Modifiers) (s : TextEditor) : TextEditor :=
  let s1 := if m.shift then
      (if s.startDraggedIndex.isNone then { s with startDraggedIndex := some s.cursorIndex } else s)
    else resetSelection s
  let s2 := if right then setCursorX s1 (s1.cursorIndex.x + 1)
    else if 0 < s1.cursorIndex.x then setCursorX s1 (s1.cursorIndex.x - 1) else s1
  if m.shift then setSelection { s2 with stopDraggedIndex := some s2.cursorIndex } else s2

/-- Mirrors `on_key_press` (text_editor.rs, lines 525-671) for the modelled
keys. -/
def onKeyPress (key : Key) (m : Modifiers) (t : Int) (s : TextEditor) : TextEditor :=
  match key with
  | .arrowDown => arrowVertical true m s
  | .arrowUp => arrowVertical false m s
  | .arrowRight => arrowHorizontal true m s
  | .arrowLeft => arrowHorizontal false m s
  | .backspace => backspaceStep t s
  | .delete => deleteStep t s
  | .enter => enterStep t s
  | .z => if m.ctrl then undoStep s else s

/-- The `Event::Text` branch of `handle_key_events` (text_editor.rs,
lines 490-499): replace the selection or insert at the cursor, record an
`AddChar` action, and advance the cursor by one column. -/
def handleTextEvent (t : Int) (txt : Str) (s : TextEditor) : TextEditor :=
  let s1 := if hasSelection s then keyPressOnSelection (some txt) s
    else insertTextAt txt s.cursorIndex s
  let s2 := pushActionToUnsavedState t (.addChar s1.cursorIndex txt) s1
  setCursorX s2 (s2.cursorIndex.x + 1)

/-- The editing operations of claim C2. -/
inductive EditOp where
  | textInsert (txt : Str)
  | backspace
  | delete
  | enter
  | undo
deriving DecidableEq

/-- Dispatch an editing operation the way the event loop does. -/
def applyEdit (op : EditOp) (t : Int) (s : TextEditor) : TextEditor :=
  match op with
  | .textInsert txt => handleTextEvent t txt s
  | .backspace => onKeyPress .backspace noModifiers t s
  | .delete => onKeyPress .delete noModifiers t s
  | .enter => onKeyPress .enter noModifiers t s
  | .undo => onKeyPress .z ctrlModifier t s

/-- The bracket characters; written via `Char.ofNat` codes 123 125 40 41 91 93
(left and right brace, paren, square bracket) to match the literals in
`text_editor.rs`. -/
def lbrace : Char := Char.ofNat 123

def rbrace : Char := Char.ofNat 125

def lparen : Char := Char.ofNat 40

def rparen : Char := Char.ofNat 41

def lbrack : Char := Char.ofNat 91

def rbrack : Char := Char.ofNat 93

/-- Mirrors `matching_closing_char` (text_editor.rs, lines 810-817). -/
def matchingClosingChar (opening : Char) : Char :=
  if opening = lbrace then rbrace
  else if opening = lparen then rparen
  else if opening = lbrack then rbrack
  else opening

/-- Mirrors `matching_opening_char` (text_editor.rs, lines 819-826). -/
def matchingOpeningChar (closing : Char) : Char :=
  if closing = rbrace then lbrace
  else if closing = rparen then lparen
  else if closing = rbrack then lbrack
  else closing

/-- The bracket-matcher cells (`opening_char`, `closing_char`,
`opening_char_index`, `closing_char_index` of `TextEditor`), modelled as
plain data recomputed from the editor state. -/
structure BracketCells where
  openingChar : Option Char
  closingChar : Option Char
  openingCharIndex : Option Pos
  closingCharIndex : Option Pos
deriving DecidableEq

/-- Mirrors `after_cursor_position_change` (text_editor.rs, lines 688-720):
inspect the character immediately left of the cursor and seed the bracket
cells (note the closing record keeps `x = cursor.x`, one past the
bracket). -/
def afterCursorPositionChange (lines : List Str) (cursorIndex : Pos) : BracketCells :=
  if cursorIndex.x = 0 then ⟨none, none, none, none⟩
  else
    match (lines.getD cursorIndex.y []).get? (cursorIndex.x - 1) with
    | some c =>
      if c = lbrace ∨ c = lparen ∨ c = lbrack then
        ⟨some c, none, some ⟨cursorIndex.x - 1, cursorIndex.y⟩, none⟩
      else if c = rbrace ∨ c = rparen ∨ c = rbrack then
        ⟨none, some c, none, some cursorIndex⟩
      else ⟨none, none, none, none⟩
    | none => ⟨none, none, none, none⟩

/-- The nesting-counter update of `find_closing_matching_char`
(text_editor.rs, lines 340-344): increment on the opening character,
decrement on its matching closing character. -/
def bumpClose (openingChar c : Char) (occ : Int) : Int :=
  if c = openingChar then occ + 1
  else if matchingClosingChar openingChar = c then occ - 1 else occ

/-- The inner character loop of `find_closing_matching_char`
(text_editor.rs, lines 336-353): scan one line's characters (index `i`)
left to right, skipping columns before the opening bracket on its own
line, maintaining the nesting counter, and recording the first closing
bracket that brings the counter to zero (stored with `x = i + 1`). -/
def closeScanLine (openingChar : Char) (oIdx : Pos) (y : Nat) :
    List Char → Nat → Int → Int × Option Pos
  | [], _, occ => (occ, none)
  | c :: cs, i, occ =>
    if y = oIdx.y ∧ i < oIdx.x then closeScanLine openingChar oIdx y cs (i + 1) occ
    else
      if matchingClosingChar openingChar = c ∧ bumpClose openingChar c occ = 0 then
        (bumpClose openingChar c occ, some ⟨i + 1, y⟩)
      else closeScanLine openingChar oIdx y cs (i + 1) (bumpClose openingChar c occ)

/-- The per-frame iteration of `find_closing_matching_char` over a run of
lines starting at absolute index `y` (text_editor.rs, lines 330-357 driven
by the `ui` loop at lines 248-258): lines above the opening bracket's line
are passed over, and once a closing match is recorded the remaining calls
do nothing. -/
def closeScanLines (openingChar : Char) (oIdx : Pos) :
    List Str → Nat → Int → Int × Option Pos
  | [], _, occ => (occ, none)
  | frag :: rest, y, occ =>
    if oIdx.y ≤ y then
      match closeScanLine openingChar oIdx y frag 0 occ with
      | (occ1, some p) => (occ1, some p)
      | (occ1, none) => closeScanLines openingChar oIdx rest (y + 1) occ1
    else closeScanLines openingChar oIdx rest (y + 1) occ

/-- The closing-bracket search restricted to the rendered window: the `ui`
loop runs `find_closing_matching_char` exactly over
`lines[first..last]`, i.e. the inclusive line range `[f, l]` with
`l = last - 1`. -/
def closeScanWindow (openingChar : Char) (oIdx : Pos)
    (lines : List Str) (f l : Nat) : Int × Option Pos :=
  closeScanLines openingChar oIdx ((lines.drop f).take (l + 1 - f)) f 0

/-- The same search run to the end of the document: the position of the
genuine matching closing bracket (the counter algorithm with no window
bound). -/
def closeScanFull (openingChar : Char) (oIdx : Pos)
    (lines : List Str) (f : Nat) : Int × Option Pos :=
  closeScanLines openingChar oIdx (lines.drop f) f 0

/-- The nesting-counter update of `find_opening_matching_char`
(text_editor.rs, lines 372-376): increment on the closing character,
decrement on its matching opening character. -/
def bumpOpen (closingChar c : Char) (occ : Int) : Int :=
  if c = closingChar then occ + 1
  else if matchingOpeningChar closingChar = c then occ - 1 else occ

/-- The inner reversed character loop of `find_opening_matching_char`
(text_editor.rs, lines 368-385): scan one line's characters right to left
(`i` indexes the reversed characters, `fragLen` is the line length),
skipping columns at or beyond the recorded closing bracket on its own
line, and recording the first opening bracket that brings the counter to
zero (stored with `x = fragLen - i - 1`). -/
def openScanLine (closingChar : Char) (cIdx : Pos) (y fragLen : Nat) :
    List Char → Nat → Int → Int × Option Pos
  | [], _, occ => (occ, none)
  | c :: cs, i, occ =>
    if cIdx.y = y ∧ cIdx.x < fragLen - i then
      openScanLine closingChar cIdx y fragLen cs (i + 1) occ
    else
      if matchingOpeningChar closingChar = c ∧ bumpOpen closingChar c occ = 0 then
        (bumpOpen closingChar c occ, some ⟨fragLen - i - 1, y⟩)
      else openScanLine closingChar cIdx y fragLen cs (i + 1) (bumpOpen closingChar c occ)

/-- The reversed line loop of `find_opening_matching_char`
(text_editor.rs, lines 362-388): iterate the window slice in reverse with
relative index `rel`, computing the absolute index as
`last_line_index - rel` (this is the source's arithmetic, which is off by
one whenever the slice `[first..min(last+1, len)]` was clamped by the
document length), skipping lines below the closing bracket. -/
def openScanLines (closingChar : Char) (cIdx : Pos) (lastLineIndex : Nat) :
    List Str → Nat → Int → Int × Option Pos
  | [], _, occ => (occ, none)
  | frag :: rest, rel, occ =>
    let abs := lastLineIndex - rel
    if abs ≤ cIdx.y then
      match openScanLine closingChar cIdx abs frag.length frag.reverse 0 occ with
      | (occ1, some p) => (occ1, some p)
      | (occ1, none) => openScanLines closingChar cIdx lastLineIndex rest (rel + 1) occ1
    else openScanLines closingChar cIdx lastLineIndex rest (rel + 1) occ

/-- Mirrors `find_opening_matching_char` (text_editor.rs, lines 359-391):
scan the slice `lines[first_line_index..min(last_line_index + 1, len)]`
in reverse for the opening bracket matching the recorded closing one,
returning the recorded opening position (or `none`). -/
def findOpeningMatchingChar (closingChar : Char) (cIdx : Pos)
    (lines : List Str) (firstLineIndex lastLineIndex : Nat) : Option Pos :=
  let slice := (lines.drop firstLineIndex).take
    (min (lastLineIndex + 1) lines.length - firstLineIndex)
  (openScanLines closingChar cIdx lastLineIndex slice.reverse 0 0).2

/-- Lexicographic order on positions: first by line, then by char. -/
def lexLe (p q : Pos) : Prop :=
  p.y < q.y ∨ (p.y = q.y ∧ p.x ≤ q.x)

instance (p q : Pos) : Decidable (lexLe p q) := by
  unfold lexLe
  infer_instance

/-- Concrete editor for claim C1: document `abc`, cursor after `a`. -/
def c1State : TextEditor :=
  ⟨[['a', 'b', 'c']], 1, ⟨1, 0⟩, none, none, none, none, none, []⟩

/-- Concrete editor for claim C3: document `a` / `b` / `c`, one frame old
(`linesCount = 3`), cursor at the origin. -/
def c3State : TextEditor :=
  ⟨[['a'], ['b'], ['c']], 3, ⟨0, 0⟩, none, none, none, none, none, []⟩

/-- Concrete editor for claim C5: document `a` / `b` / `zz` with a pending
batch holding one `NewLine` action (an `Enter` pressed at position (1,0)
split the original first line `ab`). -/
def c5State : TextEditor :=
  ⟨[['a'], ['b'], ['z', 'z']], 3, ⟨0, 1⟩, none, none, none, none,
    some ⟨0, ⟨1, 0⟩, [.newLine ⟨1, 0⟩]⟩, []⟩

/-- Concrete editor for the C5 witness: document `x` with a pending batch
holding one `AddChar` action. -/
def c5wState : TextEditor :=
  ⟨[['x']], 1, ⟨1, 0⟩, none, none, none, none,
    some ⟨0, ⟨0, 0⟩, [.addChar ⟨0, 0⟩ ['x']]⟩, []⟩

/-- Concrete editor for claim C6: document `hello world`, selection
`(0,0)-(0,5)` (as published after dragging over `hello`), cursor at the
drag endpoint. -/
def c6State : TextEditor :=
  ⟨[['h', 'e', 'l', 'l', 'o', ' ', 'w', 'o', 'r', 'l', 'd']], 1, ⟨5, 0⟩,
    some ⟨0, 0⟩, some ⟨5, 0⟩, some ⟨0, 0⟩, some ⟨5, 0⟩, none, []⟩

/-- Concrete document for claim C8: an opening brace on line 0, its closing
brace on line 1. -/
def c8Lines : List Str := [[lbrace], [rbrace]]

/-- Concrete editor for the C10 witness. -/
def c10State : TextEditor :=
  ⟨[['x', 'y']], 1, ⟨0, 0⟩, none, none, none, none, none, []⟩

/-- Concrete editor for the C2 witness. -/
def c2State : TextEditor :=
  ⟨[['a', 'b']], 1, ⟨2, 0⟩, none, none, none, none, none, []⟩

/-! Helper lemmas: the history/cursor plumbing never touches the buffer. -/

theorem lines_setCursorY (s : TextEditor) (v : Nat) : (setCursorY s v).lines = s.lines := by
  unfold setCursorY
  split <;> rfl

theorem lines_setCursorX (s : TextEditor) (w : Nat) : (setCursorX s w).lines = s.lines := by
  unfold setCursorX
  split <;> rfl

theorem lines_resetSelection (s : TextEditor) : (resetSelection s).lines = s.lines := rfl

theorem lines_flushUnsavedState (t : Int) (s : TextEditor) :
    (flushUnsavedState t s).1.lines = s.lines := by
  unfold flushUnsavedState
  rcases s with ⟨l, lc, ci, sd, td, ss, se, us, hi⟩
  cases us
  · rfl
  · dsimp
    split <;> rfl

theorem cursorIndex_flushUnsavedState (t : Int) (s : TextEditor) :
    (flushUnsavedState t s).1.cursorIndex = s.cursorIndex := by
  unfold flushUnsavedState
  rcases s with ⟨l, lc, ci, sd, td, ss, se, us, hi⟩
  cases us
  · rfl
  · dsimp
    split <;> rfl

theorem lines_feedHistory (t : Int) (s : TextEditor) : (feedHistory t s).lines = s.lines := by
  have h := lines_flushUnsavedState t s
  unfold feedHistory
  rcases hf : flushUnsavedState t s with ⟨s1, st⟩
  rw [hf] at h
  cases st <;> simpa using h

theorem cursorIndex_feedHistory (t : Int) (s : TextEditor) :
    (feedHistory t s).cursorIndex = s.cursorIndex := by
  have h := cursorIndex_flushUnsavedState t s
  unfold feedHistory
  rcases hf : flushUnsavedState t s with ⟨s1, st⟩
  rw [hf] at h
  cases st <;> simpa using h

theorem lines_pushActionToUnsavedState (t : Int) (a : SingleAction) (s : TextEditor) :
    (pushActionToUnsavedState t a s).lines = s.lines := by
  unfold pushActionToUnsavedState initUnsavedState
  rcases s with ⟨l, lc, ci, sd, td, ss, se, us, hi⟩
  cases us <;> dsimp <;> split <;> simp [lines_feedHistory]

theorem cursorIndex_pushActionToUnsavedState (t : Int) (a : SingleAction) (s : TextEditor) :
    (pushActionToUnsavedState t a s).cursorIndex = s.cursorIndex := by
  unfold pushActionToUnsavedState initUnsavedState
  rcases s with ⟨l, lc, ci, sd, td, ss, se, us, hi⟩
  cases us <;> dsimp <;> split <;> simp [cursorIndex_feedHistory]

/-- C9 counterexample: for a one-line document and floored scroll quotient
`1` (e.g. `scrollOffsetY = lineHeight`), `first_line_index` returns `1`,
which is not strictly less than the line count `1` — the clamp the claim
describes does not happen in this case. -/
theorem c9_counterexample : firstLineIndex 1 1 = 1 ∧ ¬ firstLineIndex 1 1 < 1 := by
  decide

/-- C9 (amended): outside the single uncovered case `len = 1 ∧ q = 1`,
`first_line_index` computes exactly the clamp described by the spec and
its result is strictly less than the line count. -/
theorem c9_first_line_index_clamp (q len : Nat) (h1 : 1 ≤ len)
    (hx : ¬(len = 1 ∧ q = 1)) :
    firstLineIndex q len = firstLineIndexSpec q len ∧ firstLineIndex q len < len := by
  unfold firstLineIndex firstLineIndexSpec
  split_ifs <;> omega

/-- C9 witness: a scrolled-past-the-end three-line document. -/
theorem c9_witness :
    firstLineIndex 5 3 = firstLineIndexSpec 5 3 ∧ firstLineIndex 5 3 < 3 :=
  c9_first_line_index_clamp 5 3 (by decide) (by decide)

/-- C10: with no active selection and the cursor at (0,0), Backspace leaves
the whole editor state (document lines, cursor, pending batch, history,
selection) unchanged — no branch of the Backspace handler fires. -/
theorem c10_backspace_noop (t : Int) (s : TextEditor)
    (hc : s.cursorIndex = ⟨0, 0⟩) (hsel : hasSelection s = false) :
    onKeyPress .backspace noModifiers t s = s := by
  show backspaceStep t s = s
  unfold backspaceStep
  rw [hsel]
  simp [hc]

/-- C10 witness. -/
theorem c10_witness : onKeyPress .backspace noModifiers 0 c10State = c10State :=
  c10_backspace_noop 0 c10State rfl rfl

/-- C6 counterexample: replacing the selection `(0,0)-(0,5)` of
`hello world` with `hi` leaves the cursor at char 0, not at char 2 as the
claim states (the code moves the cursor to the selection start). -/
theorem c6_counterexample :
    (keyPressOnSelection (some ['h', 'i']) c6State).cursorIndex ≠ ⟨2, 0⟩ := by
  decide

/-- C6 (amended): the scenario yields document `hi world` with the
selection cleared, but the cursor lands on the selection start (0,0). -/
theorem c6_replace_selection_scenario :
    (keyPressOnSelection (some ['h', 'i']) c6State).lines
        = [['h', 'i', ' ', 'w', 'o', 'r', 'l', 'd']] ∧
    (keyPressOnSelection (some ['h', 'i']) c6State).cursorIndex = ⟨0, 0⟩ ∧
    (keyPressOnSelection (some ['h', 'i']) c6State).selectionStartIndex = none ∧
    (keyPressOnSelection (some ['h', 'i']) c6State).selectionEndIndex = none := by
  decide

/-- C1: pressing Delete in `abc` at cursor (1,0) (recording a `RemoveChar`
batch), flushing once the 2.0 inactivity threshold has elapsed, then
undoing, yields `bac` — not the pre-batch document `abc` (the flush replay
re-inserts the removed char one column too far left), even though the
cursor does return to the batch's `cursorAtStart`. -/
theorem c1_undo_not_round_trip :
    c1State.lines = [['a', 'b', 'c']] ∧
    (onKeyPress .delete noModifiers 0 c1State).lines = [['a', 'c']] ∧
    (feedHistory 3 (onKeyPress .delete noModifiers 0 c1State)).history.length = 1 ∧
    (onKeyPress .z ctrlModifier 3
        (feedHistory 3 (onKeyPress .delete noModifiers 0 c1State))).lines
      = [['b', 'a', 'c']] ∧
    (onKeyPress .z ctrlModifier 3
        (feedHistory 3 (onKeyPress .delete noModifiers 0 c1State))).lines
      ≠ c1State.lines ∧
    (onKeyPress .z ctrlModifier 3
        (feedHistory 3 (onKeyPress .delete noModifiers 0 c1State))).cursorIndex
      = c1State.cursorIndex := by
  decide

/-- C3: starting from a fresh three-line frame, the in-frame event sequence
ArrowDown, ArrowDown, Backspace (line merge), ArrowDown leaves the cursor
on line 2 of a two-line document: `sanitize_cursor_position` clamps
against the stale `lines_count` field (still 3), so `cursor.line <
lineCount` is violated (at this point the Rust sanitizer's unchecked
`self.lines[cursor.y]` read is out of bounds). -/
theorem c3_cursor_out_of_bounds :
    ((onKeyPress .arrowDown noModifiers 0
        (onKeyPress .backspace noModifiers 0
          (onKeyPress .arrowDown noModifiers 0
            (onKeyPress .arrowDown noModifiers 0 c3State)))).lines).length = 2 ∧
    (onKeyPress .arrowDown noModifiers 0
        (onKeyPress .backspace noModifiers 0
          (onKeyPress .arrowDown noModifiers 0
            (onKeyPress .arrowDown noModifiers 0 c3State)))).cursorIndex.y = 2 := by
  decide

/-- C8: for the document `[brace-open, brace-close]` with both lines in the
visible window (`first = 0`, `last = lines.len() = 2`),
`after_cursor_position_change` at cursor (1,1) records the closing brace,
but `find_opening_matching_char` reports NO opening bracket: the reversed
scan computes `absolute_line_index = last - rel`, which is off by one
because the slice `[first..min(last+1, len)]` was clamped by the document
length, so the closing-brace line is skipped.  The final conjunct shows
the same scan with an unclamped window (a third line present) does find
the opening at (0,0). -/
theorem c8_opening_not_reported :
    (afterCursorPositionChange c8Lines ⟨1, 1⟩).closingChar = some rbrace ∧
    (afterCursorPositionChange c8Lines ⟨1, 1⟩).closingCharIndex = some ⟨1, 1⟩ ∧
    (afterCursorPositionChange c8Lines ⟨1, 1⟩).openingChar = none ∧
    findOpeningMatchingChar rbrace ⟨1, 1⟩ c8Lines 0 2 = none ∧
    findOpeningMatchingChar rbrace ⟨1, 1⟩ [[lbrace], [rbrace], []] 0 2 = some ⟨0, 0⟩ := by
  decide

/-! Helper lemmas for C4: the drag-pair normalisation is symmetric and
orders the pair; the clamps keep an in-bounds line fixed and are monotone
in the char. -/

theorem normDragPair_comm (a b : Pos) : normDragPair a b = normDragPair b a := by
  obtain ⟨ax, ay⟩ := a
  obtain ⟨bx, byy⟩ := b
  simp only [normDragPair]
  split_ifs <;> simp_all [Pos.mk.injEq, Prod.mk.injEq] <;> omega

theorem normDragPair_ordered (a b : Pos) :
    (normDragPair a b).1.y ≤ (normDragPair a b).2.y ∧
    ((normDragPair a b).1.y = (normDragPair a b).2.y →
      (normDragPair a b).1.x ≤ (normDragPair a b).2.x) := by
  obtain ⟨ax, ay⟩ := a
  obtain ⟨bx, byy⟩ := b
  simp only [normDragPair]
  split_ifs <;> simp_all <;> omega

theorem normDragPair_y_mem (a b : Pos) :
    ((normDragPair a b).1.y = a.y ∨ (normDragPair a b).1.y = b.y) ∧
    ((normDragPair a b).2.y = a.y ∨ (normDragPair a b).2.y = b.y) := by
  obtain ⟨ax, ay⟩ := a
  obtain ⟨bx, byy⟩ := b
  simp only [normDragPair]
  split_ifs <;> simp_all

theorem clampPos_y (lines : List Str) (lc : Nat) (p : Pos) (h : p.y < lc) :
    (clampPos lines lc p).y = p.y := by
  simp only [clampPos]
  split_ifs <;> first | rfl | omega

theorem clampPos_x_mono (lines : List Str) (lc : Nat) (p q : Pos)
    (hy : p.y = q.y) (hx : p.x ≤ q.x) :
    (clampPos lines lc p).x ≤ (clampPos lines lc q).x := by
  obtain ⟨px, py⟩ := p
  obtain ⟨qx, qy⟩ := q
  dsimp at hy hx
  subst hy
  simp only [clampPos]
  split_ifs <;> (try simp_all) <;> omega

/-- C4 counterexample: with a one-line document `ab`, drag anchor (char 3,
line 1) and endpoint (char 1, line 2) — positions a pointer below the text
produces — `set_selection` publishes start (2,0), end (1,0): the clamping
to the last line happens after the ordering step, so the published
selection violates `start ≤ end`. -/
theorem c4_counterexample :
    publishSel [['a', 'b']] 1 ⟨3, 1⟩ ⟨1, 2⟩ = (⟨2, 0⟩, ⟨1, 0⟩) ∧
    ¬ lexLe (publishSel [['a', 'b']] 1 ⟨3, 1⟩ ⟨1, 2⟩).1
        (publishSel [['a', 'b']] 1 ⟨3, 1⟩ ⟨1, 2⟩).2 := by
  decide

/-- C4 (amended): the selection published for anchor A and endpoint B is
identical to the one published for anchor B and endpoint A (for all drag
positions), and whenever both drag line indices are within the cached line
count the published selection satisfies `start ≤ end` in (line, char)
lexicographic order. -/
theorem c4_selection_normalization (lines : List Str) (lc : Nat) (a b : Pos) :
    publishSel lines lc a b = publishSel lines lc b a ∧
    (a.y < lc → b.y < lc →
      lexLe (publishSel lines lc a b).1 (publishSel lines lc a b).2) := by
  constructor
  · unfold publishSel
    rw [normDragPair_comm]
  · intro ha hb
    have hord := normDragPair_ordered a b
    have hmem := normDragPair_y_mem a b
    have hy1 : (normDragPair a b).1.y < lc := by rcases hmem.1 with h | h <;> omega
    have hy2 : (normDragPair a b).2.y < lc := by rcases hmem.2 with h | h <;> omega
    unfold publishSel lexLe
    dsimp
    rw [clampPos_y lines lc _ hy1, clampPos_y lines lc _ hy2]
    rcases Nat.lt_or_ge (normDragPair a b).1.y (normDragPair a b).2.y with h | h
    · exact Or.inl h
    · have heq : (normDragPair a b).1.y = (normDragPair a b).2.y := by omega
      exact Or.inr ⟨heq, clampPos_x_mono lines lc _ _ heq (hord.2 heq)⟩

/-- C4 witness: an in-bounds drag from (0, line 1) to (1, line 0) over the
document `ab` / `c`. -/
theorem c4_witness :
    publishSel [['a', 'b'], ['c']] 2 ⟨0, 1⟩ ⟨1, 0⟩
        = publishSel [['a', 'b'], ['c']] 2 ⟨1, 0⟩ ⟨0, 1⟩ ∧
    lexLe (publishSel [['a', 'b'], ['c']] 2 ⟨0, 1⟩ ⟨1, 0⟩).1
      (publishSel [['a', 'b'], ['c']] 2 ⟨0, 1⟩ ⟨1, 0⟩).2 :=
  ⟨(c4_selection_normalization [['a', 'b'], ['c']] 2 ⟨0, 1⟩ ⟨1, 0⟩).1,
    (c4_selection_normalization [['a', 'b'], ['c']] 2 ⟨0, 1⟩ ⟨1, 0⟩).2
      (by decide) (by decide)⟩

/-- C5 counterexample: flushing the batch of `c5State` (one `NewLine`, the
record of an Enter that split `ab` into `a` / `b`): the reconstructed
"before" snapshot is `[ab]` (1 line) and the "after" snapshot of the
current buffer is `[a, b]` (2 lines), so the claim requires `AddText`;
the code classifies the entry as `RemoveText` (its `before_lines_count`
variable actually measures the after snapshot). -/
theorem c5_counterexample :
    (beforeSnapshot c5State.lines [.newLine ⟨1, 0⟩]).length
        ≤ (afterSnapshot c5State.lines [.newLine ⟨1, 0⟩]).length ∧
    (flushUnsavedState 3 c5State).2
        = some ⟨0, ⟨1, 0⟩, .removeText ⟨0, 1, [['a', 'b']]⟩⟩ := by
  decide

/-- C5 (amended): a flushed entry is classified `AddText` exactly when the
"after" snapshot (the current buffer over `[min, max]`) has fewer-or-equal
lines than the reconstructed "before" snapshot — the reverse of the
claim's comparison — and the lines stored in the entry are indeed the
"before" snapshot's lines. -/
theorem c5_flush_classification (t : Int) (s : TextEditor) (u : UnsavedState) (st : State)
    (hu : s.unsavedStated = some u)
    (hst : (flushUnsavedState t s).2 = some st) :
    ((∃ ta, st.bulkAction = .addText ta) ↔
      (afterSnapshot s.lines u.actions).length
        ≤ (beforeSnapshot s.lines u.actions).length) ∧
    entryLines st.bulkAction = beforeSnapshot s.lines u.actions := by
  unfold flushUnsavedState at hst
  rw [hu] at hst
  dsimp at hst
  by_cases ht : t - u.lastActivityAt < 2
  · rw [if_pos ht] at hst
    exact absurd hst (by simp)
  · rw [if_neg ht] at hst
    dsimp at hst
    injection hst with hst
    subst hst
    by_cases hc : (afterSnapshot s.lines u.actions).length
        ≤ (beforeSnapshot s.lines u.actions).length
    · rw [if_pos hc]
      exact ⟨⟨fun _ => hc, fun _ => ⟨_, rfl⟩⟩, rfl⟩
    · rw [if_neg hc]
      refine ⟨⟨fun h => ?_, fun h => absurd h hc⟩, rfl⟩
      obtain ⟨ta, hta⟩ := h
      exact absurd hta (by simp)

/-- C5 witness: flushing a single-`AddChar` batch over the document `x`. -/
theorem c5_witness :
    ((∃ ta, (State.mk 0 ⟨0, 0⟩ (.addText ⟨0, 0, [[]]⟩)).bulkAction = .addText ta) ↔
      (afterSnapshot c5wState.lines [.addChar ⟨0, 0⟩ ['x']]).length
        ≤ (beforeSnapshot c5wState.lines [.addChar ⟨0, 0⟩ ['x']]).length) ∧
    entryLines (State.mk 0 ⟨0, 0⟩ (.addText ⟨0, 0, [[]]⟩)).bulkAction
        = beforeSnapshot c5wState.lines [.addChar ⟨0, 0⟩ ['x']] :=
  c5_flush_classification 2 c5wState ⟨0, ⟨0, 0⟩, [.addChar ⟨0, 0⟩ ['x']]⟩
    ⟨0, ⟨0, 0⟩, .addText ⟨0, 0, [[]]⟩⟩ rfl (by decide)

/-! Helper lemmas for C7: a hit of the closing-bracket scan lies on the
line it was produced for, the line loop only yields hits inside the run of
lines it was given, and a hit found on a prefix of the lines is the hit
found on any extension. -/

theorem closeScanLine_some_y (oc : Char) (oi : Pos) (y : Nat) (cs : List Char)
    (i : Nat) (occ o : Int) (p : Pos)
    (h : closeScanLine oc oi y cs i occ = (o, some p)) : p.y = y := by
  induction cs generalizing i occ with
  | nil => simp [closeScanLine] at h
  | cons c cs ih =>
    rw [closeScanLine] at h
    split at h
    · exact ih _ _ h
    · split at h
      · simp only [Prod.mk.injEq, Option.some.injEq] at h
        rw [← h.2]
      · exact ih _ _ h

theorem closeScanLines_some_bound (oc : Char) (oi : Pos) (ls : List Str)
    (y : Nat) (occ o : Int) (p : Pos)
    (h : closeScanLines oc oi ls y occ = (o, some p)) :
    y ≤ p.y ∧ p.y < y + ls.length := by
  induction ls generalizing y occ with
  | nil => simp [closeScanLines] at h
  | cons frag rest ih =>
    unfold closeScanLines at h
    split at h
    · rcases hl : closeScanLine oc oi y frag 0 occ with ⟨o1, r⟩
      rw [hl] at h
      cases r with
      | some q =>
        dsimp at h
        simp only [Prod.mk.injEq, Option.some.injEq] at h
        have hy := closeScanLine_some_y oc oi y frag 0 occ o1 q hl
        rw [← h.2]
        simp only [List.length_cons]
        omega
      | none =>
        dsimp at h
        have := ih _ _ h
        simp only [List.length_cons]
        omega
    · have := ih _ _ h
      simp only [List.length_cons]
      omega

theorem closeScanLines_append (oc : Char) (oi : Pos) (l1 l2 : List Str)
    (y : Nat) (occ o : Int) (p : Pos)
    (h : closeScanLines oc oi l1 y occ = (o, some p)) :
    closeScanLines oc oi (l1 ++ l2) y occ = (o, some p) := by
  induction l1 generalizing y occ with
  | nil => simp [closeScanLines] at h
  | cons frag rest ih =>
    rw [List.cons_append]
    rw [closeScanLines] at h ⊢
    by_cases hy : oi.y ≤ y
    · rw [if_pos hy] at h ⊢
      rcases hl : closeScanLine oc oi y frag 0 occ with ⟨o1, r⟩
      rw [hl] at h
      cases r with
      | some q =>
        dsimp only at h ⊢
        exact h
      | none =>
        dsimp only at h ⊢
        exact ih _ _ h
    · rw [if_neg hy] at h ⊢
      exact ih _ _ h

/-- C7: when the character left of the cursor is an opening bracket (as
detected by `after_cursor_position_change`) and the genuine matching
closing bracket — the first hit of the same counter scan run with no
window bound — lies on a line strictly after the last visible line `l`,
the window-bounded scan of `find_closing_matching_char` records no closing
match (so no highlight is painted); moreover the window scan reads nothing
but the window slice `lines[f..=l]`: any document agreeing with `lines` on
that slice produces the identical scan result. -/
theorem c7_bracket_search_window_bound (openingChar : Char) (oIdx cursor : Pos)
    (lines : List Str) (f l : Nat) (o : Int) (p : Pos)
    (_hcell : (afterCursorPositionChange lines cursor).openingChar = some openingChar)
    (_hcidx : (afterCursorPositionChange lines cursor).openingCharIndex = some oIdx)
    (hfull : closeScanFull openingChar oIdx lines f = (o, some p))
    (hbeyond : l < p.y) :
    (closeScanWindow openingChar oIdx lines f l).2 = none ∧
    ∀ lines2 : List Str,
      (lines2.drop f).take (l + 1 - f) = (lines.drop f).take (l + 1 - f) →
      closeScanWindow openingChar oIdx lines2 f l
        = closeScanWindow openingChar oIdx lines f l := by
  constructor
  · rcases hw : closeScanWindow openingChar oIdx lines f l with ⟨o2, r⟩
    cases r with
    | none => rfl
    | some q =>
      exfalso
      unfold closeScanWindow at hw
      have happ := closeScanLines_append openingChar oIdx
        ((lines.drop f).take (l + 1 - f)) ((lines.drop f).drop (l + 1 - f)) f 0 o2 q hw
      rw [List.take_append_drop] at happ
      unfold closeScanFull at hfull
      rw [hfull] at happ
      simp only [Prod.mk.injEq, Option.some.injEq] at happ
      have hb := closeScanLines_some_bound openingChar oIdx
        ((lines.drop f).take (l + 1 - f)) f 0 o2 q hw
      have hlen : ((lines.drop f).take (l + 1 - f)).length ≤ l + 1 - f :=
        List.length_take_le _ _
      rw [← happ.2] at hb
      omega
  · intro lines2 h2
    unfold closeScanWindow
    rw [h2]

/-- C7 witness: document brace-open / empty / brace-close, window `[0, 1]`,
genuine match on line 2. -/
theorem c7_witness :
    (closeScanWindow lbrace ⟨0, 0⟩ [[lbrace], [], [rbrace]] 0 1).2 = none :=
  (c7_bracket_search_window_bound lbrace ⟨0, 0⟩ ⟨1, 0⟩ [[lbrace], [], [rbrace]]
    0 1 0 ⟨1, 2⟩ (by decide) (by decide) (by decide) (by decide)).1

/-! Helper lemmas for C2: each editing branch keeps the buffer non-empty. -/

theorem length_keyPressOnSelection (txt : Option Str) (s : TextEditor)
    (hsel : ∀ p, s.selectionEndIndex = some p → p.y < s.lines.length)
    (h1 : 1 ≤ s.lines.length) :
    1 ≤ (keyPressOnSelection txt s).lines.length := by
  rcases s with ⟨l, lc, ci, sd, td, ss, se, us, hi⟩
  dsimp at hsel h1 ⊢
  unfold keyPressOnSelection
  cases ss with
  | none => cases se <;> exact h1
  | some st =>
    cases se with
    | none => exact h1
    | some en =>
      have hy : en.y < l.length := hsel en rfl
      dsimp only
      simp only [lines_resetSelection, lines_setCursorX, lines_setCursorY]
      split_ifs with hA hB <;>
        simp only [removeAt, byteIndexFromCharIndex, List.length_set,
          List.length_append, List.length_take, List.length_drop] <;>
        omega

theorem length_backspaceStep (t : Int) (s : TextEditor)
    (hsel : ∀ p, s.selectionEndIndex = some p → p.y < s.lines.length)
    (h1 : 1 ≤ s.lines.length) :
    1 ≤ (backspaceStep t s).lines.length := by
  unfold backspaceStep
  dsimp only
  split_ifs with hS h2 h3 hR
  · exact length_keyPressOnSelection none s hsel h1
  · simp only [removeCharAt, lines_setCursorX, lines_pushActionToUnsavedState,
      List.length_set]
    exact h1
  · simp only [lines_setCursorX, lines_setCursorY, removeAt,
      cursorIndex_pushActionToUnsavedState, lines_pushActionToUnsavedState,
      List.length_set, List.length_append, List.length_take, List.length_drop]
    omega
  · simp only [lines_setCursorX, lines_setCursorY, removeAt,
      cursorIndex_pushActionToUnsavedState, lines_pushActionToUnsavedState,
      List.length_set, List.length_append, List.length_take, List.length_drop]
    omega
  · exact h1

theorem length_deleteStep (t : Int) (s : TextEditor)
    (hsel : ∀ p, s.selectionEndIndex = some p → p.y < s.lines.length)
    (h1 : 1 ≤ s.lines.length) :
    1 ≤ (deleteStep t s).lines.length := by
  unfold deleteStep
  dsimp only
  split_ifs with hS h2 h3 h4 hR
  · exact length_keyPressOnSelection none s hsel h1
  · simp only [removeCharAt, lines_pushActionToUnsavedState,
      cursorIndex_pushActionToUnsavedState, List.length_set]
    exact h1
  · simp only [lines_setCursorY, removeAt, cursorIndex_pushActionToUnsavedState,
      lines_pushActionToUnsavedState, List.length_append, List.length_take,
      List.length_drop]
    omega
  · simp only [removeAt, cursorIndex_pushActionToUnsavedState,
      lines_pushActionToUnsavedState, List.length_set, List.length_append,
      List.length_take, List.length_drop]
    omega
  · simp only [removeAt, cursorIndex_pushActionToUnsavedState,
      lines_pushActionToUnsavedState, List.length_set, List.length_append,
      List.length_take, List.length_drop]
    omega
  · exact h1

theorem length_enterStep (t : Int) (s : TextEditor)
    (hsel : ∀ p, s.selectionEndIndex = some p → p.y < s.lines.length)
    (h1 : 1 ≤ s.lines.length) :
    1 ≤ (enterStep t s).lines.length := by
  unfold enterStep
  dsimp only
  split_ifs with hS
  · exact length_keyPressOnSelection none s hsel h1
  · simp only [lines_setCursorX, lines_setCursorY,
      cursorIndex_pushActionToUnsavedState, lines_pushActionToUnsavedState,
      insertListAt, List.length_append, List.length_take, List.length_drop,
      List.length_cons, List.length_nil, List.length_set]
    omega

theorem length_undoStep (s : TextEditor)
    (hhist : ∀ e ∈ s.history, 1 ≤ (entryLines e.bulkAction).length)
    (h1 : 1 ≤ s.lines.length) :
    1 ≤ (undoStep s).lines.length := by
  unfold undoStep
  cases hL : s.history.getLast? with
  | none => exact h1
  | some st =>
    have hmem : st ∈ s.history := List.mem_of_mem_getLast? (by simp [hL])
    have hst := hhist st hmem
    rcases st with ⟨ct, ci, ba⟩
    cases ba with
    | addText a =>
      dsimp [entryLines] at hst ⊢
      simp only [List.length_append, List.length_take, List.length_drop]
      omega
    | removeText a =>
      dsimp [entryLines] at hst ⊢
      split_ifs with hE <;>
        simp only [List.length_append, List.length_take, List.length_drop,
          List.length_nil] <;>
        omega

/-- C2: every modelled editing operation — character insertion, Backspace,
Delete, Enter (each replacing the selection when one is active), and undo —
keeps the document at least one line long, provided the published
selection's end lies inside the document and every history entry stores a
non-empty payload (both hold for the values the code itself publishes). -/
theorem c2_line_count_invariant (op : EditOp) (t : Int) (s : TextEditor)
    (hsel : ∀ p, s.selectionEndIndex = some p → p.y < s.lines.length)
    (hhist : ∀ e ∈ s.history, 1 ≤ (entryLines e.bulkAction).length)
    (h1 : 1 ≤ s.lines.length) :
    1 ≤ (applyEdit op t s).lines.length := by
  cases op with
  | textInsert txt =>
    show 1 ≤ (handleTextEvent t txt s).lines.length
    unfold handleTextEvent
    simp only [lines_setCursorX, lines_pushActionToUnsavedState]
    split_ifs with hS
    · exact length_keyPressOnSelection (some txt) s hsel h1
    · simp only [insertTextAt, List.length_set]
      exact h1
  | backspace => exact length_backspaceStep t s hsel h1
  | delete => exact length_deleteStep t s hsel h1
  | enter => exact length_enterStep t s hsel h1
  | undo => exact length_undoStep s hhist h1

/-- C2 witness: Backspace on the one-line document `ab`. -/
theorem c2_witness : 1 ≤ ((applyEdit .backspace 0 c2State).lines).length :=
  c2_line_count_invariant .backspace 0 c2State
    (fun p h => by simp [c2State] at h)
    (fun e he => by simp [c2State] at he)
    (by decide)

end Editor
